import Mathlib

/-!
Verification of the arcane-armory D&D item generator.

Shallow embedding of the program (data tables in `data_tables.py`, themed
generator in `dnd_item_gen.py`, OpenAI-enhanced generator in
`dnd_item_gen_openai.py`) together with theorems settling the frozen claims
about it.  Python strings are embedded as Lean `String`; the process-global
random source is made explicit (one `Nat` index per `random.choice` call, a
rational for `random.random()`); fallible paths return `Option`/`Except`.
-/

/-! ## ANSI styling (`dnd_item_gen.py` lines 28‑82) -/

/-- The ASCII escape character `\x1b`. -/
def escChar : Char := Char.ofNat 27

def RESET : String := "\x1b[0m"

def BOLD : String := "\x1b[1m"

def DIM : String := "\x1b[2m"

def BRIGHT_BLACK : String := "\x1b[90m"

def BRIGHT_RED : String := "\x1b[91m"

def BRIGHT_GREEN : String := "\x1b[92m"

def BRIGHT_YELLOW : String := "\x1b[93m"

def BRIGHT_BLUE : String := "\x1b[94m"

def BRIGHT_MAGENTA : String := "\x1b[95m"

def BRIGHT_CYAN : String := "\x1b[96m"

def BRIGHT_WHITE : String := "\x1b[97m"

/-- `color(text, *styles)`: apply ANSI styles to text (source line 72‑74). -/
def color (text : String) (styles : List String) : String :=
  String.join styles ++ text ++ RESET

/-- One step of a left-to-right scanner implementing
`ANSI_ESCAPE_RE.sub("", s)` for the pattern `\x1b\[[0-9;]*m` (source line 77).
State: output so far and the currently buffered candidate escape prefix
(either empty, a lone escape, or escape + bracket + digit/semicolon run).
On a character that cannot extend the buffered prefix the buffer is flushed
to the output, matching the regex behaviour of leaving unmatched text alone;
a completed `...m` match is dropped. -/
def stepStrip : List Char × List Char → Char → List Char × List Char
  | (out, buf), c =>
    match buf with
    | [] => if c = escChar then (out, [c]) else (out ++ [c], [])
    | [e] =>
      if c = '[' then (out, [e, c])
      else if c = escChar then (out ++ [e], [c])
      else (out ++ [e, c], [])
    | b =>
      if c = 'm' then (out, [])
      else if c.isDigit = true ∨ c = ';' then (out, b ++ [c])
      else if c = escChar then (out ++ b, [c])
      else (out ++ b ++ [c], [])

/-- Run the ANSI-stripping scanner over a character list. -/
def stripRun (l : List Char) : List Char × List Char :=
  l.foldl stepStrip ([], [])

/-- The stripped character list: scanner output plus the flushed final buffer
(an unterminated escape prefix at end of string is not a regex match). -/
def stripAnsiList (l : List Char) : List Char :=
  (stripRun l).1 ++ (stripRun l).2

/-- `strip_ansi(s)`: remove ANSI escape sequences (source lines 80‑82). -/
def strip_ansi (s : String) : String :=
  ⟨stripAnsiList s.data⟩

/-- Visible width of a line: its length after ANSI stripping. -/
def visibleLen (s : String) : Nat :=
  (strip_ansi s).length

/-! ## Generic string helpers used by the embedding -/

/-- Embeds Python `needle in hay` substring containment over char lists. -/
def hasSubstr (needle : List Char) : List Char → Bool
  | [] => needle.isEmpty
  | c :: t => needle.isPrefixOf (c :: t) || hasSubstr needle t

/-- Python `w in text` on strings. -/
def strIn (w text : String) : Bool :=
  hasSubstr w.data text.data

/-- Python `any(w in text for w in ws)`. -/
def anyIn (text : String) (ws : List String) : Bool :=
  ws.any fun w => strIn w text

/-- Python `str.lower()`; all cased table text is ASCII, where per-char
`Char.toLower` agrees with Python lowering. -/
def lowerStr (s : String) : String :=
  ⟨s.data.map Char.toLower⟩

/-- Helper for `titleStr`: the flag records whether the previous character
was cased (alphabetic). -/
def titleAux : Bool → List Char → List Char
  | _, [] => []
  | prev, c :: cs =>
    if c.isAlpha then
      (if prev then c.toLower else c.toUpper) :: titleAux true cs
    else
      c :: titleAux false cs

/-- Python `str.title()`: first character of each maximal cased run is
upper-cased, the rest lower-cased (ASCII, which covers all table text). -/
def titleStr (s : String) : String :=
  ⟨titleAux false s.data⟩

/-- `random.choice(pool)` with the random draw made explicit: index `k`
reduced modulo the pool size.  Total (returns `""` on an empty pool, which
`random.choice` instead rejects; all call sites pass non-empty pools). -/
def choiceAt (pool : List String) (k : Nat) : String :=
  pool.getD (k % pool.length) ""

/-- An apostrophe, as a string. -/
def apos : String := String.singleton (Char.ofNat 39)

/-! ## Data tables (`data_tables.py`) -/

def RARITIES : List String :=
  ["Common", "Uncommon", "Rare", "Very Rare", "Legendary", "Artifact"]

def ITEM_TYPES : List String :=
  ["sword", "dagger", "greatsword", "longbow", "shortbow", "warhammer",
   "battleaxe", "mace", "staff", "wand", "orb", "shield", "breastplate",
   "leather armor", "cloak", "ring", "amulet", "belt", "boots", "helm",
   "gauntlets", "tome", "instrument", "lantern", "maul", "flail", "chakram",
   "crossbow", "spellbook"]

def MATERIALS : List String :=
  ["iron", "steel", "obsidian", "mithral", "adamantine", "dragonbone",
   "cold iron", "star metal", "shadowglass", "crystalline", "runic stone",
   "ghostwood", "moonsteel", "bloodstone", "void crystal", "sunforged bronze",
   "eldritch ivory", "wyrmscale"]

def QUALITIES : List String :=
  ["ornate", "runed", "weathered", "gleaming", "ancient", "ceremonial",
   "barbaric", "elegant", "jagged", "etched", "sunglow", "frostbitten",
   "ember-forged", "saintly", "cursed", "prismatic", "mirrorbright",
   "rootbound"]

def ENCHANTMENTS : List String :=
  ["flames dance along its edge 🔥",
   "it hums softly when danger is near",
   "it whispers the names of the dead in a chilling murmur 💀",
   "it glows faintly under the light of the moon 🌙",
   "its surface drinks in surrounding light",
   "it sings in battle with eerie harmony",
   "it bends shadows around the wielder",
   "it crackles with latent storm energy ⚡",
   "it radiates a soothing warmth",
   "it leaves faint spectral afterimages when swung",
   "tiny motes of starlight drift from it when drawn ✨",
   "a faint chorus of distant voices echoes inside it",
   "it briefly reveals invisible runes on nearby surfaces",
   "it leaves behind the scent of rain on stone",
   "its reflection sometimes moves a heartbeat out of sync"]

def ORIGINS : List String :=
  ["forged in the heart of a dying star",
   "crafted by a forgotten archmage",
   "recovered from the depths of an ancient ruin",
   "woven from the dreams of sleeping gods",
   "hammered on an anvil of dragonfire",
   "blessed in the waters of a sacred spring",
   "stolen from the hoard of a jealous demon",
   "found in the shattered vaults beneath a ruined city",
   "gifted by the fey courts at a terrible price",
   "salvaged from the armor of a fallen celestial",
   "pieced together from relics scattered across a dozen battlefields",
   "sung into being by a circle of druids at solstice",
   "excavated from a meteorite that never cooled",
   "traded for a single whispered secret in a midnight market",
   "recovered from a time-locked vault that should never have opened"]

def QUIRKS : List String :=
  ["occasionally changes weight at random",
   "emits the scent of ozone when used",
   "causes faint spectral motes to orbit the wielder",
   "sometimes speaks in riddles only the wielder can hear",
   "is invisible to anyone who has lied in the last hour",
   "refuses to be drawn against the innocent",
   "leaves footprints of light wherever it goes",
   "causes nearby candles to burn with colored flames 🕯️",
   "slowly repairs itself from any damage",
   "seems slightly heavier in the presence of dragons 🐉",
   "occasionally giggles softly when no one is looking",
   "casts a shadow that sometimes points in the wrong direction",
   "rings like crystal when lies are spoken nearby",
   "attracts small harmless animals that refuse to leave",
   "its reflection is always a little older than reality"]

def ATTUNEMENT_REQUIREMENTS : List String :=
  ["Attunement required by a spellcaster",
   "Attunement required by a creature of good alignment",
   "Attunement required by a creature of non‑lawful alignment",
   "Attunement required by a proficient martial weapon user",
   "No attunement required",
   "Attunement required by a creature who has slain a dragon",
   "Attunement required by a creature proficient with heavy armor",
   "Attunement required by a bard, cleric, or paladin",
   "Attunement required by a creature who has made a pact with a patron",
   "Attunement required by a creature bearing a notable scar"]

def MECHANICAL_EFFECTS : List String :=
  ["+1 bonus to attack and damage rolls",
   "+2 bonus to AC while worn",
   "advantage on saving throws against being charmed",
   "resistance to fire damage",
   "resistance to cold damage",
   "resistance to necrotic damage",
   "you can cast Detect Magic at will",
   "you can cast Misty Step once per short rest",
   "you can speak, read, and write Draconic",
   "once per day, you can reroll a failed attack roll",
   "your walking speed increases by 10 ft.",
   "you gain darkvision out to 60 ft.",
   "once per long rest, you can turn invisible for 1 minute",
   "you have advantage on Initiative rolls",
   "you can breathe underwater",
   "your spell save DC for one class increases by 1"]

/-! ## Theme inference and effect selection (`dnd_item_gen.py` 161‑197) -/

/-- `infer_theme(material, quality, enchantment)` (source lines 161‑187):
lower-case the space-joined flavor text and test the themes in source order,
returning the first whose keyword set has a substring match.  With `String`
inputs Python's `x or ""` is the identity on the joined text. -/
def infer_theme (material quality enchantment : String) : String :=
  let text := lowerStr (material ++ " " ++ quality ++ " " ++ enchantment)
  if anyIn text ["flame", "fire", "ember", "ash", "inferno", "lava", "scorch", "burn", "sun"] then "fire"
  else if anyIn text ["frost", "ice", "icy", "cold", "winter", "snow"] then "cold"
  else if anyIn text ["shadow", "night", "dark", "gloom", "umbral", "void", "shade", "ghost", "spectral"] then "shadow"
  else if anyIn text ["storm", "lightning", "thunder", "tempest", "squall"] then "storm"
  else if anyIn text ["vine", "root", "moss", "leaf", "petal", "forest", "druid", "beast", "animal", "nature", "wood", "fey"] then "fey"
  else if anyIn text ["holy", "divine", "radiant", "saint", "angel", "celestial", "blessed", "hallowed"] then "radiant"
  else if anyIn text ["blood", "bone", "grave", "death", "corpse", "skull", "necrotic", "wither"] then "necrotic"
  else if anyIn text ["arcane", "spell", "wizard", "mage", "rune", "sigil", "glyph", "scroll", "tome"] then "arcane"
  else "generic"

/-- The spec's declarative form of the same heuristic: an ordered
(theme, keyword set) table, themes tested in priority order. -/
def themeTable : List (String × List String) :=
  [("fire", ["flame", "fire", "ember", "ash", "inferno", "lava", "scorch", "burn", "sun"]),
   ("cold", ["frost", "ice", "icy", "cold", "winter", "snow"]),
   ("shadow", ["shadow", "night", "dark", "gloom", "umbral", "void", "shade", "ghost", "spectral"]),
   ("storm", ["storm", "lightning", "thunder", "tempest", "squall"]),
   ("fey", ["vine", "root", "moss", "leaf", "petal", "forest", "druid", "beast", "animal", "nature", "wood", "fey"]),
   ("radiant", ["holy", "divine", "radiant", "saint", "angel", "celestial", "blessed", "hallowed"]),
   ("necrotic", ["blood", "bone", "grave", "death", "corpse", "skull", "necrotic", "wither"]),
   ("arcane", ["arcane", "spell", "wizard", "mage", "rune", "sigil", "glyph", "scroll", "tome"])]

/-- First theme of an ordered table whose keywords match, else `"generic"`. -/
def firstTheme (text : String) : List (String × List String) → String
  | [] => "generic"
  | (t, ws) :: rest => if anyIn text ws then t else firstTheme text rest

/-- Theme inference as the spec words it: lower-cased space-joined text,
fixed priority table, first keyword match wins, else `"generic"`. -/
def inferThemeSpec (material quality enchantment : String) : String :=
  firstTheme (lowerStr (material ++ " " ++ quality ++ " " ++ enchantment)) themeTable

/-- Modelled from the spec: `THEMED_MECHANICAL_EFFECTS` is imported by
`dnd_item_gen.py` from `data_tables.py` but is not defined in that file as
present in the repository, so its concrete contents are unknown.  The spec
only states that it maps theme tags to theme-specific subsets of the
mechanical-effect table; the embedding therefore passes the mapping as an
explicit parameter, `.get theme` absence being `none`. -/
abbrev ThemedTable : Type := String → Option (List String)

/-- `pick_mechanical_effect` (source lines 190‑197): prefer a non-empty
themed pool for the inferred theme, else fall back to the generic table. -/
def pick_mechanical_effect (themed : ThemedTable) (material quality enchantment : String) (k : Nat) : String :=
  let theme := infer_theme material quality enchantment
  let themed_pool := (themed theme).getD []
  if themed_pool ≠ [] then choiceAt themed_pool k
  else choiceAt MECHANICAL_EFFECTS k

/-! ## Item assembly (`dnd_item_gen.py` 93‑232, `dnd_item_gen_openai.py` 170‑226) -/

/-- The generated item record.  Required base fields are plain strings; the
optional enhancement fields model Python keys that are absent (or `None`)
as `none`. -/
structure Item where
  name : String
  rarity_name : String
  rarity_color : String
  rarity_emoji : String
  type : String
  material : String
  quality : String
  enchantment : String
  origin : String
  quirk : String
  attune : String
  effect : String
  enhanced_lore : Option String := none
  enhanced_quirk : Option String := none
  mechanical_note : Option String := none
deriving DecidableEq

/-- One behavior of the random source: the index chosen by each
`random.choice` call and the float drawn by `random.random()`, as a
rational. -/
structure Roll where
  rarity : Nat
  itemType : Nat
  material : Nat
  quality : Nat
  enchantment : Nat
  origin : Nat
  quirk : Nat
  attune : Nat
  effect : Nat
  nameU : ℚ
  epithet : Nat

/-- `RARITY_STYLES.get(rarity_name, {"color": BRIGHT_WHITE, "emoji": "✨"})`
(source lines 93‑100 and 202‑204): color and emoji for a rarity name. -/
def RARITY_STYLES (r : String) : String × String :=
  if r = "Common" then (BRIGHT_BLACK, "⚪")
  else if r = "Uncommon" then (BRIGHT_GREEN, "🟢")
  else if r = "Rare" then (BRIGHT_BLUE, "🔵")
  else if r = "Very Rare" then (BRIGHT_MAGENTA, "🟣")
  else if r = "Legendary" then (BRIGHT_YELLOW, "🟡")
  else if r = "Artifact" then (BRIGHT_RED, "🔴")
  else (BRIGHT_WHITE, "✨")

/-- The fixed epithet list of `build_item_name` (both variants). -/
def epithets : List String :=
  ["the Dragonsong", "the Starforged", "the Umbral Edge", "the Dawnbreaker",
   "the Soulbound", "the Dreamweaver", "the Gravewhisper", "the Stormcall",
   "the Night" ++ apos ++ "s Embrace", "the Sunshard", "the Last Oath",
   "the Silent Choir"]

/-- `build_item_name` (identical in both source files): named-artifact style
when `random.random() < 0.4`, descriptive style otherwise. -/
def build_item_name (rarity_name material quality item_type : String) (u : ℚ) (ek : Nat) : String :=
  if u < (0.4 : ℚ) then
    titleStr quality ++ " " ++ titleStr item_type ++ " of " ++ choiceAt epithets ek
  else
    rarity_name ++ " " ++ quality ++ " " ++ material ++ " " ++ item_type

/-- `generate_item` (`dnd_item_gen.py` lines 200‑232), the themed variant. -/
def generate_item (themed : ThemedTable) (g : Roll) : Item :=
  let rarity_name := choiceAt RARITIES g.rarity
  let style := RARITY_STYLES rarity_name
  let item_type := choiceAt ITEM_TYPES g.itemType
  let material := choiceAt MATERIALS g.material
  let quality := choiceAt QUALITIES g.quality
  let enchantment := choiceAt ENCHANTMENTS g.enchantment
  let origin := choiceAt ORIGINS g.origin
  let quirk := choiceAt QUIRKS g.quirk
  let attune := choiceAt ATTUNEMENT_REQUIREMENTS g.attune
  let effect := pick_mechanical_effect themed material quality enchantment g.effect
  let name := build_item_name rarity_name material quality item_type g.nameU g.epithet
  { name := name, rarity_name := rarity_name, rarity_color := style.1,
    rarity_emoji := style.2, type := item_type, material := material,
    quality := quality, enchantment := enchantment, origin := origin,
    quirk := quirk, attune := attune, effect := effect }

/-- `generate_base_item` (`dnd_item_gen_openai.py` lines 194‑226), the
non-themed variant: the effect is drawn from the flat generic table. -/
def generate_base_item (g : Roll) : Item :=
  let rarity_name := choiceAt RARITIES g.rarity
  let style := RARITY_STYLES rarity_name
  let item_type := choiceAt ITEM_TYPES g.itemType
  let material := choiceAt MATERIALS g.material
  let quality := choiceAt QUALITIES g.quality
  let enchantment := choiceAt ENCHANTMENTS g.enchantment
  let origin := choiceAt ORIGINS g.origin
  let quirk := choiceAt QUIRKS g.quirk
  let attune := choiceAt ATTUNEMENT_REQUIREMENTS g.attune
  let effect := choiceAt MECHANICAL_EFFECTS g.effect
  let name := build_item_name rarity_name material quality item_type g.nameU g.epithet
  { name := name, rarity_name := rarity_name, rarity_color := style.1,
    rarity_emoji := style.2, type := item_type, material := material,
    quality := quality, enchantment := enchantment, origin := origin,
    quirk := quirk, attune := attune, effect := effect }

/-! ## OpenAI enhancement (`dnd_item_gen_openai.py` 233‑295) -/

/-- The parsed JSON reply of the chat call: `data.get(key)` for each of the
four expected keys, `none` when the key is missing or null. -/
structure RespData where
  name : Option String := none
  enhanced_lore : Option String := none
  enhanced_quirk : Option String := none
  mechanical_note : Option String := none

/-- `enhance_with_openai(item)` (source lines 233‑295).  The environment is
explicit: whether the client object was constructed, whether
`OPENAI_API_KEY` is set, and the outcome of the remote call —
`Except.error e` standing for any exception raised by the request or by
JSON parsing of its reply (in the source no item mutation precedes a
possible raise).  On failure `item.setdefault("mechanical_note", "")`
leaves an existing note and otherwise stores the empty string. -/
def enhance_with_openai (clientAvailable keyPresent : Bool)
    (outcome : Except String RespData) (item : Item) : Item × String :=
  if clientAvailable = false ∨ keyPresent = false then
    (item, "🔒 OpenAI not configured; showing base generator output.")
  else
    match outcome with
    | Except.ok data =>
        ({ item with
            name := data.name.getD item.name,
            enhanced_lore := data.enhanced_lore,
            enhanced_quirk := data.enhanced_quirk,
            mechanical_note := data.mechanical_note },
         "🤖 gpt-5.1 enhancement applied.")
    | Except.error e =>
        ({ item with mechanical_note := some (item.mechanical_note.getD "") },
         "⚠️ OpenAI enhancement failed: " ++ e)

/-! ## Image persistence (`dnd_item_gen_openai.py` 330‑351) -/

/-- The filename slug of `save_image_to_file` (source lines 341‑343):
`"item"` replaces an absent or empty name (Python `item_name or "item"`);
alphanumeric characters are lower-cased, all others become `_`, and the
result is cut to 40 characters.  The generated names are ASCII, where
`Char.isAlphanum`/`Char.toLower` agree with Python `isalnum`/`lower`. -/
def slug_of_name (item_name : Option String) : String :=
  let nm := match item_name with
    | none => "item"
    | some s => if s = "" then "item" else s
  ⟨(nm.data.map fun c => if c.isAlphanum then c.toLower else '_').take 40⟩

/-- The path of the saved image relative to the script directory
(source lines 336‑345): fixed `images` subdirectory, slug plus `.png`. -/
def save_image_relpath (item_name : Option String) : String :=
  "images/" ++ slug_of_name item_name ++ ".png"

/-! ## Card rendering (`dnd_item_gen.py` 235‑284, `dnd_item_gen_openai.py` 440‑503) -/

/-- The synthesized lore sentence of the renderers. -/
def baseLore (item : Item) : String :=
  "Forged origin: " ++ item.origin ++ ". Its magic is such that " ++
    item.enchantment ++ "."

/-- The synthesized quirk sentence of the renderers. -/
def baseQuirk (item : Item) : String :=
  "Quirk: " ++ item.quirk ++ "."

/-- The lore text chosen by `render_item_card`
(`dnd_item_gen_openai.py` lines 454‑465): the enhanced lore when the field
is truthy — present and non-empty — else the synthesized sentence. -/
def render_lore_text (item : Item) : String :=
  match item.enhanced_lore with
  | some s => if s = "" then baseLore item else s
  | none => baseLore item

/-- The quirk text chosen by `render_item_card`
(`dnd_item_gen_openai.py` lines 467‑470). -/
def render_quirk_text (item : Item) : String :=
  match item.enhanced_quirk with
  | some s => if s = "" then baseQuirk item else s
  | none => baseQuirk item

/-- `framed_block(lines, border_color)` (`dnd_item_gen.py` lines 235‑247).
On an empty list the source's `max()` raises `ValueError`, embedded as
`none`; otherwise the bordered box is returned.  For a non-empty list the
Python `max` equals the fold of `max` from `0` over the visible widths. -/
def framed_block (lines : List String) (border_color : String) : Option (List String) :=
  match lines with
  | [] => none
  | _ =>
    let width := (lines.map visibleLen).foldl max 0
    let top := color ("┌" ++ String.mk (List.replicate (width + 2) '─') ++ "┐") [border_color]
    let bottom := color ("└" ++ String.mk (List.replicate (width + 2) '─') ++ "┘") [border_color]
    some (top :: lines.map (fun line =>
      let pad := String.mk (List.replicate (width - visibleLen line) ' ')
      color "│ " [border_color] ++ line ++ pad ++ " " ++ color "│" [border_color])
      ++ [bottom])

/-- The body lines built by `render_item_card` (`dnd_item_gen.py` lines
250‑283).  The `textwrap.TextWrapper(width=70).wrap` calls are abstracted
as an arbitrary wrapping function `wrap`; no claim depends on the wrapped
line boundaries. -/
def render_card_body (item : Item) (wrap : String → List String) : List String :=
  let rarity_str := item.rarity_emoji ++ " " ++ item.rarity_name
  let name_str := color item.name [BRIGHT_YELLOW, BOLD]
  let type_line := color "Type: " [BRIGHT_CYAN, BOLD] ++
    item.quality ++ " " ++ item.material ++ " " ++ item.type
  let rarity_line := color "Rarity: " [BRIGHT_CYAN, BOLD] ++
    color rarity_str [item.rarity_color, BOLD]
  let mech_line := color "Mechanic: " [BRIGHT_CYAN, BOLD] ++ item.effect
  let attune_line := color "Attunement: " [BRIGHT_CYAN, BOLD] ++ item.attune
  let lore_lines := wrap (baseLore item)
  let quirk_lines := wrap (baseQuirk item)
  [name_str, rarity_line, type_line, "", mech_line, attune_line, ""] ++
    [color "📜 Lore:" [BRIGHT_MAGENTA, BOLD]] ++ lore_lines ++ [""] ++
    [color "✨ Oddities:" [BRIGHT_MAGENTA, BOLD]] ++ quirk_lines

/-- `render_item_card(item)` of the framed variant (`dnd_item_gen.py`
lines 250‑284): the body passed to `framed_block` with the default
border color. -/
def render_item_card (item : Item) (wrap : String → List String) : Option (List String) :=
  framed_block (render_card_body item wrap) BRIGHT_BLUE

/-- A complete ANSI style code: escape, bracket, digit/semicolon run, `m`. -/
def isAnsiCode (s : String) : Prop :=
  ∃ ps, s.data = escChar :: '[' :: (ps ++ ['m']) ∧ ∀ c ∈ ps, c.isDigit = true ∨ c = ';'

/-- A character that can neither open nor extend an escape sequence. -/
def neutralChar (c : Char) : Prop :=
  c ≠ escChar ∧ c ≠ '[' ∧ c ≠ 'm' ∧ c ≠ ';' ∧ c.isDigit = false

instance (c : Char) : Decidable (neutralChar c) := by
  unfold neutralChar; infer_instance

/-- A concrete item used to instantiate theorems with hypotheses. -/
def sampleItem : Item :=
  { name := "Rare ornate iron sword", rarity_name := "Rare",
    rarity_color := "\x1b[94m", rarity_emoji := "🔵", type := "sword",
    material := "iron", quality := "ornate",
    enchantment := "it hums softly when danger is near",
    origin := "crafted by a forgotten archmage",
    quirk := "emits the scent of ozone when used",
    attune := "No attunement required",
    effect := "+1 bonus to attack and damage rolls" }


/-! ## Lemmas about the ANSI-stripping scanner -/

lemma data_append (a b : String) : (a ++ b).data = a.data ++ b.data := rfl

lemma data_join_single (s : String) : (String.join [s]).data = s.data := rfl

lemma isAnsiCode_RESET : isAnsiCode RESET := ⟨['0'], rfl, by decide⟩

lemma isAnsiCode_BRIGHT_BLUE : isAnsiCode BRIGHT_BLUE := ⟨['9', '4'], rfl, by decide⟩

lemma stepStrip_shift (o b : List Char) (c : Char) :
    stepStrip (o, b) c = (o ++ (stepStrip ([], b) c).1, (stepStrip ([], b) c).2) := by
  rcases b with _ | ⟨e, _ | ⟨e2, t⟩⟩ <;> simp only [stepStrip] <;> split_ifs <;> simp

lemma foldl_stepStrip_shift (r : List Char) : ∀ o b : List Char,
    r.foldl stepStrip (o, b) =
      (o ++ (r.foldl stepStrip ([], b)).1, (r.foldl stepStrip ([], b)).2) := by
  induction r with
  | nil => intro o b; simp
  | cons c r ih =>
    intro o b
    simp only [List.foldl_cons]
    rcases hc : stepStrip ([], b) c with ⟨s1, s2⟩
    rw [stepStrip_shift o b c, hc, ih (o ++ s1) s2, ih s1 s2]
    simp [List.append_assoc]

lemma stepStrip_neutral {c : Char} (h : neutralChar c) (o b : List Char) :
    stepStrip (o, b) c = (o ++ b ++ [c], []) := by
  obtain ⟨h1, h2, h3, h4, h5⟩ := h
  rcases b with _ | ⟨e, _ | ⟨e2, t⟩⟩ <;>
    simp [stepStrip, h1, h2, h3, h4, h5]

lemma foldl_stepStrip_neutral (l : List Char) (h : ∀ c ∈ l, neutralChar c) :
    ∀ o : List Char, l.foldl stepStrip (o, []) = (o ++ l, []) := by
  induction l with
  | nil => intro o; simp
  | cons c t ih =>
    intro o
    rw [List.foldl_cons, stepStrip_neutral (h c (List.mem_cons_self c t)) o []]
    have := ih (fun x hx => h x (List.mem_cons_of_mem c hx)) (o ++ [] ++ [c])
    rw [this]
    simp

lemma foldl_stepStrip_flush (l : List Char) (hne : l ≠ [])
    (h : ∀ c ∈ l, neutralChar c) (o b : List Char) :
    l.foldl stepStrip (o, b) = (o ++ b ++ l, []) := by
  cases l with
  | nil => exact absurd rfl hne
  | cons c t =>
    rw [List.foldl_cons, stepStrip_neutral (h c (List.mem_cons_self c t)) o b]
    rw [foldl_stepStrip_neutral t (fun x hx => h x (List.mem_cons_of_mem c hx)) (o ++ b ++ [c])]
    simp

lemma foldl_stepStrip_runState (ps : List Char) :
    (∀ c ∈ ps, c.isDigit = true ∨ c = ';') → ∀ o acc : List Char,
    (ps ++ ['m']).foldl stepStrip (o, escChar :: '[' :: acc) = (o, []) := by
  induction ps with
  | nil => intro _ o acc; simp [stepStrip]
  | cons p ps ih =>
    intro h o acc
    have hp := h p (List.mem_cons_self p ps)
    have hpm : p ≠ 'm' := by
      rcases hp with hd | rfl
      · intro he; rw [he] at hd; simp at hd
      · decide
    have hstep : stepStrip (o, escChar :: '[' :: acc) p
        = (o, escChar :: '[' :: (acc ++ [p])) := by
      simp [stepStrip, hpm, hp]
    rw [List.cons_append, List.foldl_cons, hstep]
    exact ih (fun x hx => h x (List.mem_cons_of_mem p hx)) o (acc ++ [p])

lemma foldl_stepStrip_code (s : String) (hs : isAnsiCode s) (o : List Char) :
    s.data.foldl stepStrip (o, []) = (o, []) := by
  obtain ⟨ps, hd, hps⟩ := hs
  rw [hd]
  have h1 : stepStrip (o, []) escChar = (o, [escChar]) := by simp [stepStrip]
  have h2 : stepStrip (o, [escChar]) '[' = (o, [escChar, '[']) := by simp [stepStrip]
  rw [List.foldl_cons, h1, List.foldl_cons, h2]
  exact foldl_stepStrip_runState ps hps o []

lemma stripAnsiList_color_neutral (s bc : String) (hbc : isAnsiCode bc)
    (hs : ∀ c ∈ s.data, neutralChar c) :
    stripAnsiList (color s [bc]).data = s.data := by
  have e1 : (color s [bc]).data = bc.data ++ (s.data ++ RESET.data) := by
    simp [color, data_append, data_join_single, List.append_assoc]
  unfold stripAnsiList stripRun
  rw [e1, List.foldl_append, List.foldl_append, foldl_stepStrip_code bc hbc []]
  rw [foldl_stepStrip_neutral s.data hs []]
  rw [foldl_stepStrip_code RESET isAnsiCode_RESET ([] ++ s.data)]
  simp

lemma visibleLen_color_neutral (s bc : String) (hbc : isAnsiCode bc)
    (hs : ∀ c ∈ s.data, neutralChar c) :
    visibleLen (color s [bc]) = s.length := by
  unfold visibleLen strip_ansi
  rw [stripAnsiList_color_neutral s bc hbc hs]

lemma stripAnsiList_interior (bc line pad : String) (hbc : isAnsiCode bc)
    (hpad : ∀ c ∈ pad.data, c = ' ') :
    stripAnsiList (color "│ " [bc] ++ line ++ pad ++ " " ++ color "│" [bc]).data
      = "│ ".data ++ (stripAnsiList line.data ++ ((pad.data ++ " ".data) ++ "│".data)) := by
  have e1 : (color "│ " [bc] ++ line ++ pad ++ " " ++ color "│" [bc]).data
      = bc.data ++ ("│ ".data ++ (RESET.data ++ (line.data ++
          ((pad.data ++ " ".data) ++ (bc.data ++ ("│".data ++ RESET.data)))))) := by
    simp [color, data_append, data_join_single, List.append_assoc]
  have hbar : ∀ c ∈ "│ ".data, neutralChar c := by decide
  have hpadsp : ∀ c ∈ pad.data ++ " ".data, neutralChar c := by
    intro c hc
    rcases List.mem_append.1 hc with h | h
    · rw [hpad c h]; decide
    · have : c = ' ' := by simpa using h
      rw [this]; decide
  unfold stripAnsiList stripRun
  rw [e1]
  rw [List.foldl_append, foldl_stepStrip_code bc hbc []]
  rw [List.foldl_append, foldl_stepStrip_neutral "│ ".data hbar []]
  rw [List.foldl_append, foldl_stepStrip_code RESET isAnsiCode_RESET ([] ++ "│ ".data)]
  rw [List.foldl_append, foldl_stepStrip_shift line.data ([] ++ "│ ".data) []]
  rw [List.foldl_append,
    foldl_stepStrip_flush (pad.data ++ " ".data) (by simp) hpadsp _ _]
  rw [List.foldl_append, foldl_stepStrip_code bc hbc _]
  rw [List.foldl_append, foldl_stepStrip_neutral "│".data (by decide) _]
  rw [foldl_stepStrip_code RESET isAnsiCode_RESET _]
  simp [List.append_assoc]

lemma visibleLen_interior (bc line pad : String) (hbc : isAnsiCode bc)
    (hpad : ∀ c ∈ pad.data, c = ' ') :
    visibleLen (color "│ " [bc] ++ line ++ pad ++ " " ++ color "│" [bc])
      = 2 + (visibleLen line + (pad.length + 2)) := by
  have h2 : ("│ ".data).length = 2 := rfl
  have h1 : ("│".data).length = 1 := rfl
  have hsp : (" ".data).length = 1 := rfl
  have hv : (String.mk (stripAnsiList line.data)).length = visibleLen line := rfl
  have hv' : (stripAnsiList line.data).length = visibleLen line := rfl
  have hp : (pad.data).length = pad.length := rfl
  unfold visibleLen strip_ansi
  show (stripAnsiList _).length = _
  rw [stripAnsiList_interior bc line pad hbc hpad]
  simp only [List.length_append, h2, h1, hsp, hv, hv', hp]

/-! ## Fold-max helpers (Python `max` over a non-empty generator) -/

lemma foldl_max_init_le (l : List Nat) : ∀ b : Nat, b ≤ l.foldl max b := by
  induction l with
  | nil => intro b; simp
  | cons a t ih =>
    intro b
    calc b ≤ max b a := le_max_left b a
    _ ≤ t.foldl max (max b a) := ih (max b a)

lemma mem_le_foldl_max (l : List Nat) (x : Nat) (hx : x ∈ l) :
    ∀ b : Nat, x ≤ l.foldl max b := by
  induction l with
  | nil => cases hx
  | cons a t ih =>
    intro b
    rcases List.mem_cons.1 hx with rfl | hmem
    · calc x ≤ max b x := le_max_right b x
      _ ≤ t.foldl max (max b x) := foldl_max_init_le t (max b x)
    · exact ih hmem (max b a)

lemma visibleLen_box_row (bc : String) (hbc : isAnsiCode bc) (l r : String) (n : Nat)
    (hl : ∀ c ∈ l.data, neutralChar c) (hr : ∀ c ∈ r.data, neutralChar c) :
    visibleLen (color (l ++ String.mk (List.replicate n '─') ++ r) [bc])
      = l.length + n + r.length := by
  rw [visibleLen_color_neutral _ bc hbc ?hneut]
  case hneut =>
    intro c hc
    rw [data_append, data_append] at hc
    rcases List.mem_append.1 hc with h | h
    · rcases List.mem_append.1 h with h' | h'
      · exact hl c h'
      · have : c = '─' := List.eq_of_mem_replicate h'
        rw [this]; decide
    · exact hr c h
  show (((l ++ String.mk (List.replicate n '─') ++ r)).data).length = _
  rw [data_append, data_append]
  have hm : ((String.mk (List.replicate n '─')).data).length = n := by
    simp
  simp only [List.length_append, hm]
  rfl

/-- C3: every line of a rendered frame — top border, one interior line per
input line, bottom border — has visible (ANSI-stripped) width equal to the
maximum visible input width plus the fixed margin 4; shorter lines are
space-padded so the right border sits at that column whatever style markers
the lines embed. -/
theorem framed_block_visible_width (lines out : List String) (bc : String)
    (hbc : isAnsiCode bc) (hout : framed_block lines bc = some out) :
    out.length = lines.length + 2 ∧
    ∀ l ∈ out, visibleLen l = (lines.map visibleLen).foldl max 0 + 4 := by
  cases lines with
  | nil => simp [framed_block] at hout
  | cons a t =>
    simp only [framed_block, Option.some.injEq] at hout
    subst hout
    set W := (((a :: t).map visibleLen)).foldl max 0 with hW
    constructor
    · simp
    · intro l hl
      rcases List.mem_cons.1 hl with rfl | hl'
      · -- top border
        rw [visibleLen_box_row bc hbc "┌" "┐" (W + 2) (by decide) (by decide)]
        have e1 : ("┌" : String).length = 1 := rfl
        have e2 : ("┐" : String).length = 1 := rfl
        omega
      · rcases List.mem_append.1 hl' with hmap | hbot
        · -- interior line
          obtain ⟨line, hline, rfl⟩ := List.mem_map.1 hmap
          have hpad : ∀ c ∈ (String.mk (List.replicate (W - visibleLen line) ' ')).data, c = ' ' :=
            fun c hc => List.eq_of_mem_replicate hc
          rw [visibleLen_interior bc line _ hbc hpad]
          have hle : visibleLen line ≤ W :=
            mem_le_foldl_max _ _ (List.mem_map_of_mem visibleLen hline) 0
          have hplen : (String.mk (List.replicate (W - visibleLen line) ' ')).length
              = W - visibleLen line := by simp [String.length]
          rw [hplen]
          omega
        · -- bottom border
          have : l = color ("└" ++ String.mk (List.replicate (W + 2) '─') ++ "┘") [bc] := by
            simpa using hbot
          subst this
          rw [visibleLen_box_row bc hbc "└" "┘" (W + 2) (by decide) (by decide)]
          have e1 : ("└" : String).length = 1 := rfl
          have e2 : ("┘" : String).length = 1 := rfl
          omega

/-- Witness for C3 at a concrete frame: lines `["ab", "c"]` give width 2 and
every rendered line has visible width 6. -/
theorem framed_block_visible_width_witness :
    visibleLen "\x1b[94m│ \x1b[0mc  \x1b[94m│\x1b[0m" = 6 :=
  (framed_block_visible_width ["ab", "c"]
      ["\x1b[94m┌────┐\x1b[0m",
       "\x1b[94m│ \x1b[0mab \x1b[94m│\x1b[0m",
       "\x1b[94m│ \x1b[0mc  \x1b[94m│\x1b[0m",
       "\x1b[94m└────┘\x1b[0m"]
      BRIGHT_BLUE isAnsiCode_BRIGHT_BLUE (by rfl)).2
    "\x1b[94m│ \x1b[0mc  \x1b[94m│\x1b[0m" (by simp)

/-- C1: theme inference is the deterministic first-match scan of the fixed
priority table (fire, cold, shadow, storm, fey, radiant, necrotic, arcane,
else generic) over the lower-cased space-joined flavor text, and on
material `"iron"`, quality `"frostbitten"`, enchantment
`"it hums softly"` it yields `"cold"`. -/
theorem infer_theme_spec_and_example :
    (∀ material quality enchantment : String,
      infer_theme material quality enchantment
        = inferThemeSpec material quality enchantment) ∧
    infer_theme "iron" "frostbitten" "it hums softly" = "cold" := by
  constructor
  · intro m q e
    simp only [infer_theme, inferThemeSpec, themeTable, firstTheme]
  · rfl

lemma choiceAt_mem (pool : List String) (k : Nat) (h : pool ≠ []) :
    choiceAt pool k ∈ pool := by
  unfold choiceAt
  have hlen : 0 < pool.length := List.length_pos.2 h
  have hlt : k % pool.length < pool.length := Nat.mod_lt k hlen
  rw [List.getD_eq_getElem pool "" hlt]
  exact List.getElem_mem hlt

/-- C2: whatever the themed-effect table holds, the picked effect lies in
the themed subset for the inferred theme whenever that subset is present
and non-empty, and in the full generic `MECHANICAL_EFFECTS` table whenever
the subset is empty or absent. -/
theorem pick_mechanical_effect_in_pool (themed : ThemedTable)
    (material quality enchantment : String) (k : Nat) :
    ((themed (infer_theme material quality enchantment)).getD [] ≠ [] →
      pick_mechanical_effect themed material quality enchantment k
        ∈ (themed (infer_theme material quality enchantment)).getD []) ∧
    ((themed (infer_theme material quality enchantment)).getD [] = [] →
      pick_mechanical_effect themed material quality enchantment k
        ∈ MECHANICAL_EFFECTS) := by
  constructor
  · intro h
    simp only [pick_mechanical_effect]
    rw [if_pos h]
    exact choiceAt_mem _ _ h
  · intro h
    simp only [pick_mechanical_effect]
    rw [if_neg (not_not_intro h)]
    exact choiceAt_mem _ _ (by decide)

/-- Witness for C2: with a cold subset `["resistance to cold damage"]` and
the cold-inferred flavor text, the picked effect is in that subset. -/
theorem pick_mechanical_effect_in_pool_witness :
    pick_mechanical_effect
      (fun t => if t = "cold" then some ["resistance to cold damage"] else none)
      "iron" "frostbitten" "it hums softly" 0 ∈ ["resistance to cold damage"] :=
  (pick_mechanical_effect_in_pool
      (fun t => if t = "cold" then some ["resistance to cold damage"] else none)
      "iron" "frostbitten" "it hums softly" 0).1 (by decide)

/-- C7: the name is artifact-style — title-cased quality and type, `" of "`,
an epithet of the fixed 12-entry list — exactly when the uniform draw is
below 0.4, and otherwise the descriptive concatenation of rarity name,
quality, material and item type separated by single spaces. -/
theorem build_item_name_styles (r m q t : String) (u : ℚ) (k : Nat) :
    (u < (0.4 : ℚ) →
      build_item_name r m q t u k
          = titleStr q ++ " " ++ titleStr t ++ " of " ++ choiceAt epithets k ∧
        choiceAt epithets k ∈ epithets) ∧
    ((0.4 : ℚ) ≤ u →
      build_item_name r m q t u k = r ++ " " ++ q ++ " " ++ m ++ " " ++ t) ∧
    epithets.length = 12 := by
  refine ⟨fun h => ?_, fun h => ?_, rfl⟩
  · unfold build_item_name
    rw [if_pos h]
    exact ⟨rfl, choiceAt_mem _ _ (by decide)⟩
  · unfold build_item_name
    rw [if_neg (not_lt.2 h)]

/-- Witness for C7: draw 0 gives the artifact style, draw 1 the
descriptive style. -/
theorem build_item_name_styles_witness :
    (build_item_name "Rare" "iron" "ornate" "sword" 0 0
        = "Ornate Sword of the Dragonsong"
      ∧ "the Dragonsong" ∈ epithets) ∧
    build_item_name "Rare" "iron" "ornate" "sword" 1 0
        = "Rare ornate iron sword" := by
  constructor
  · have h := (build_item_name_styles "Rare" "iron" "ornate" "sword" 0 0).1 (by norm_num)
    exact ⟨h.1.trans rfl, h.2⟩
  · exact (build_item_name_styles "Rare" "iron" "ornate" "sword" 1 0).2.1 (by norm_num)

lemma strLen_append (a b : String) : (a ++ b).length = a.length + b.length := by
  show ((a ++ b).data).length = _
  rw [data_append, List.length_append]
  rfl

lemma build_item_name_ne_empty (r m q t : String) (u : ℚ) (k : Nat) :
    build_item_name r m q t u k ≠ "" := by
  have hlen : 0 < (build_item_name r m q t u k).length := by
    unfold build_item_name
    split
    · have e : (" of " : String).length = 4 := rfl
      simp only [strLen_append, e]
      omega
    · have e : (" " : String).length = 1 := rfl
      simp only [strLen_append, e]
      omega
  intro he
  rw [he] at hlen
  exact absurd hlen (by decide)

lemma pick_mechanical_effect_mem_generic (themed : ThemedTable)
    (hsub : ∀ t pool, themed t = some pool → pool ⊆ MECHANICAL_EFFECTS)
    (m q e : String) (k : Nat) :
    pick_mechanical_effect themed m q e k ∈ MECHANICAL_EFFECTS := by
  by_cases h : (themed (infer_theme m q e)).getD [] = []
  · simp only [pick_mechanical_effect]
    rw [if_neg (not_not_intro h)]
    exact choiceAt_mem _ _ (by decide)
  · simp only [pick_mechanical_effect]
    rw [if_pos h]
    have hmem := choiceAt_mem _ k h
    rcases ho : themed (infer_theme m q e) with _ | pool
    · rw [ho] at h; simp at h
    · rw [ho] at hmem
      exact hsub _ pool ho (by simpa using hmem)

/-- C4: for every behavior of the random source, both assemblers populate
every required field with a non-empty string drawn from its source table
(the themed picker staying inside the generic effect table as long as the
themed subsets are subsets of it, as the spec defines them), and the name
comes from the synthesized name template. -/
theorem generated_item_fields (themed : ThemedTable)
    (hsub : ∀ t pool, themed t = some pool → pool ⊆ MECHANICAL_EFFECTS)
    (g : Roll) :
    ((generate_item themed g).name
        = build_item_name (generate_item themed g).rarity_name
            (generate_item themed g).material (generate_item themed g).quality
            (generate_item themed g).type g.nameU g.epithet ∧
      (generate_item themed g).name ≠ "" ∧
      (generate_item themed g).rarity_name ∈ RARITIES ∧
      (generate_item themed g).type ∈ ITEM_TYPES ∧
      (generate_item themed g).material ∈ MATERIALS ∧
      (generate_item themed g).quality ∈ QUALITIES ∧
      (generate_item themed g).enchantment ∈ ENCHANTMENTS ∧
      (generate_item themed g).origin ∈ ORIGINS ∧
      (generate_item themed g).quirk ∈ QUIRKS ∧
      (generate_item themed g).attune ∈ ATTUNEMENT_REQUIREMENTS ∧
      (generate_item themed g).effect ∈ MECHANICAL_EFFECTS ∧
      (generate_item themed g).rarity_name ≠ "" ∧
      (generate_item themed g).type ≠ "" ∧
      (generate_item themed g).material ≠ "" ∧
      (generate_item themed g).quality ≠ "" ∧
      (generate_item themed g).enchantment ≠ "" ∧
      (generate_item themed g).origin ≠ "" ∧
      (generate_item themed g).quirk ≠ "" ∧
      (generate_item themed g).attune ≠ "" ∧
      (generate_item themed g).effect ≠ "") ∧
    ((generate_base_item g).name
        = build_item_name (generate_base_item g).rarity_name
            (generate_base_item g).material (generate_base_item g).quality
            (generate_base_item g).type g.nameU g.epithet ∧
      (generate_base_item g).name ≠ "" ∧
      (generate_base_item g).rarity_name ∈ RARITIES ∧
      (generate_base_item g).type ∈ ITEM_TYPES ∧
      (generate_base_item g).material ∈ MATERIALS ∧
      (generate_base_item g).quality ∈ QUALITIES ∧
      (generate_base_item g).enchantment ∈ ENCHANTMENTS ∧
      (generate_base_item g).origin ∈ ORIGINS ∧
      (generate_base_item g).quirk ∈ QUIRKS ∧
      (generate_base_item g).attune ∈ ATTUNEMENT_REQUIREMENTS ∧
      (generate_base_item g).effect ∈ MECHANICAL_EFFECTS ∧
      (generate_base_item g).rarity_name ≠ "" ∧
      (generate_base_item g).type ≠ "" ∧
      (generate_base_item g).material ≠ "" ∧
      (generate_base_item g).quality ≠ "" ∧
      (generate_base_item g).enchantment ≠ "" ∧
      (generate_base_item g).origin ≠ "" ∧
      (generate_base_item g).quirk ≠ "" ∧
      (generate_base_item g).attune ≠ "" ∧
      (generate_base_item g).effect ≠ "") := by
  have hr := choiceAt_mem RARITIES g.rarity (by decide)
  have ht := choiceAt_mem ITEM_TYPES g.itemType (by decide)
  have hm := choiceAt_mem MATERIALS g.material (by decide)
  have hq := choiceAt_mem QUALITIES g.quality (by decide)
  have he := choiceAt_mem ENCHANTMENTS g.enchantment (by decide)
  have ho := choiceAt_mem ORIGINS g.origin (by decide)
  have hk := choiceAt_mem QUIRKS g.quirk (by decide)
  have ha := choiceAt_mem ATTUNEMENT_REQUIREMENTS g.attune (by decide)
  have hf := choiceAt_mem MECHANICAL_EFFECTS g.effect (by decide)
  have hfx := pick_mechanical_effect_mem_generic themed hsub
    (choiceAt MATERIALS g.material) (choiceAt QUALITIES g.quality)
    (choiceAt ENCHANTMENTS g.enchantment) g.effect
  refine ⟨⟨rfl, build_item_name_ne_empty _ _ _ _ _ _, hr, ht, hm, hq, he, ho, hk, ha, hfx,
      ?_, ?_, ?_, ?_, ?_, ?_, ?_, ?_, ?_⟩,
    ⟨rfl, build_item_name_ne_empty _ _ _ _ _ _, hr, ht, hm, hq, he, ho, hk, ha, hf,
      ?_, ?_, ?_, ?_, ?_, ?_, ?_, ?_, ?_⟩⟩
  · exact (by decide : ∀ x ∈ RARITIES, x ≠ "") _ hr
  · exact (by decide : ∀ x ∈ ITEM_TYPES, x ≠ "") _ ht
  · exact (by decide : ∀ x ∈ MATERIALS, x ≠ "") _ hm
  · exact (by decide : ∀ x ∈ QUALITIES, x ≠ "") _ hq
  · exact (by decide : ∀ x ∈ ENCHANTMENTS, x ≠ "") _ he
  · exact (by decide : ∀ x ∈ ORIGINS, x ≠ "") _ ho
  · exact (by decide : ∀ x ∈ QUIRKS, x ≠ "") _ hk
  · exact (by decide : ∀ x ∈ ATTUNEMENT_REQUIREMENTS, x ≠ "") _ ha
  · exact (by decide : ∀ x ∈ MECHANICAL_EFFECTS, x ≠ "") _ hfx
  · exact (by decide : ∀ x ∈ RARITIES, x ≠ "") _ hr
  · exact (by decide : ∀ x ∈ ITEM_TYPES, x ≠ "") _ ht
  · exact (by decide : ∀ x ∈ MATERIALS, x ≠ "") _ hm
  · exact (by decide : ∀ x ∈ QUALITIES, x ≠ "") _ hq
  · exact (by decide : ∀ x ∈ ENCHANTMENTS, x ≠ "") _ he
  · exact (by decide : ∀ x ∈ ORIGINS, x ≠ "") _ ho
  · exact (by decide : ∀ x ∈ QUIRKS, x ≠ "") _ hk
  · exact (by decide : ∀ x ∈ ATTUNEMENT_REQUIREMENTS, x ≠ "") _ ha
  · exact (by decide : ∀ x ∈ MECHANICAL_EFFECTS, x ≠ "") _ hf

/-- Witness for C4: the all-zero roll with an absent themed table. -/
theorem generated_item_fields_witness :
    (generate_item (fun _ => none) ⟨0, 0, 0, 0, 0, 0, 0, 0, 0, 1, 0⟩).rarity_name
      ∈ RARITIES :=
  (generated_item_fields (fun _ => none) (fun _ _ h => Option.noConfusion h)
    ⟨0, 0, 0, 0, 0, 0, 0, 0, 0, 1, 0⟩).1.2.2.1

/-- C6: with the client unavailable or the key missing, enhancement returns
the item unchanged together with the fixed fallback status note (a total
function: this path cannot raise). -/
theorem enhance_unconfigured (client key : Bool)
    (outcome : Except String RespData) (item : Item)
    (h : client = false ∨ key = false) :
    enhance_with_openai client key outcome item
      = (item, "🔒 OpenAI not configured; showing base generator output.") := by
  unfold enhance_with_openai
  rw [if_pos h]

/-- Witness for C6 at a concrete unconfigured environment and item. -/
theorem enhance_unconfigured_witness :
    enhance_with_openai false true (Except.error "boom")
        { name := "n", rarity_name := "Common", rarity_color := "", rarity_emoji := "⚪",
          type := "sword", material := "iron", quality := "ornate",
          enchantment := "e", origin := "o", quirk := "q", attune := "a", effect := "f" }
      = ({ name := "n", rarity_name := "Common", rarity_color := "", rarity_emoji := "⚪",
           type := "sword", material := "iron", quality := "ornate",
           enchantment := "e", origin := "o", quirk := "q", attune := "a", effect := "f" },
         "🔒 OpenAI not configured; showing base generator output.") :=
  enhance_unconfigured false true (Except.error "boom") _ (Or.inl rfl)

lemma ne_empty_of_length (s : String) (h : 0 < s.length) : s ≠ "" := by
  intro he
  rw [he] at h
  exact absurd h (by decide)

/-- Counterexample to C5 as stated: on a remote failure the returned item is
not otherwise intact — `item.setdefault("mechanical_note", "")` adds an
empty mechanical note to an item that had none. -/
theorem enhance_failure_not_intact :
    (enhance_with_openai true true (Except.error "boom")
        { name := "n", rarity_name := "Common", rarity_color := "", rarity_emoji := "⚪",
          type := "sword", material := "iron", quality := "ornate",
          enchantment := "e", origin := "o", quirk := "q", attune := "a",
          effect := "f" }).1
      ≠ { name := "n", rarity_name := "Common", rarity_color := "", rarity_emoji := "⚪",
          type := "sword", material := "iron", quality := "ornate",
          enchantment := "e", origin := "o", quirk := "q", attune := "a",
          effect := "f" } ∧
    (enhance_with_openai true true (Except.error "boom")
        { name := "n", rarity_name := "Common", rarity_color := "", rarity_emoji := "⚪",
          type := "sword", material := "iron", quality := "ornate",
          enchantment := "e", origin := "o", quirk := "q", attune := "a",
          effect := "f" }).1.mechanical_note = some "" := by
  constructor
  · intro h
    have := congrArg Item.mechanical_note h
    simp [enhance_with_openai] at this
  · rfl

/-- C5 amended: on any remote-call failure the enhancement returns, without
raising, the item with every base field and both enhanced text fields
unchanged and `mechanical_note` set to its old value or `""` when absent,
together with the non-empty failure status string. -/
theorem enhance_failure_amended (item : Item) (e : String) :
    (enhance_with_openai true true (Except.error e) item).1
      = { item with mechanical_note := some (item.mechanical_note.getD "") } ∧
    (enhance_with_openai true true (Except.error e) item).1.name = item.name ∧
    (enhance_with_openai true true (Except.error e) item).1.rarity_name = item.rarity_name ∧
    (enhance_with_openai true true (Except.error e) item).1.rarity_color = item.rarity_color ∧
    (enhance_with_openai true true (Except.error e) item).1.rarity_emoji = item.rarity_emoji ∧
    (enhance_with_openai true true (Except.error e) item).1.type = item.type ∧
    (enhance_with_openai true true (Except.error e) item).1.material = item.material ∧
    (enhance_with_openai true true (Except.error e) item).1.quality = item.quality ∧
    (enhance_with_openai true true (Except.error e) item).1.enchantment = item.enchantment ∧
    (enhance_with_openai true true (Except.error e) item).1.origin = item.origin ∧
    (enhance_with_openai true true (Except.error e) item).1.quirk = item.quirk ∧
    (enhance_with_openai true true (Except.error e) item).1.attune = item.attune ∧
    (enhance_with_openai true true (Except.error e) item).1.effect = item.effect ∧
    (enhance_with_openai true true (Except.error e) item).1.enhanced_lore = item.enhanced_lore ∧
    (enhance_with_openai true true (Except.error e) item).1.enhanced_quirk = item.enhanced_quirk ∧
    (enhance_with_openai true true (Except.error e) item).2
      = "⚠️ OpenAI enhancement failed: " ++ e ∧
    (enhance_with_openai true true (Except.error e) item).2 ≠ "" := by
  refine ⟨rfl, rfl, rfl, rfl, rfl, rfl, rfl, rfl, rfl, rfl, rfl, rfl, rfl, rfl, rfl, rfl, ?_⟩
  show "⚠️ OpenAI enhancement failed: " ++ e ≠ ""
  apply ne_empty_of_length
  rw [strLen_append]
  have hp : 0 < ("⚠️ OpenAI enhancement failed: " : String).length := by decide
  omega

/-- C8: the card renderer prefers the enhanced lore and quirk fields exactly
when they are present and non-empty, and otherwise falls back to the
sentences synthesized from the base fields. -/
theorem render_text_precedence (item : Item) :
    (∀ s, item.enhanced_lore = some s → s ≠ "" → render_lore_text item = s) ∧
    (item.enhanced_lore = none ∨ item.enhanced_lore = some "" →
      render_lore_text item = baseLore item) ∧
    (∀ s, item.enhanced_quirk = some s → s ≠ "" → render_quirk_text item = s) ∧
    (item.enhanced_quirk = none ∨ item.enhanced_quirk = some "" →
      render_quirk_text item = baseQuirk item) := by
  refine ⟨fun s hs hne => ?_, fun h => ?_, fun s hs hne => ?_, fun h => ?_⟩
  · unfold render_lore_text
    rw [hs]
    exact if_neg hne
  · rcases h with h | h <;> unfold render_lore_text <;> rw [h]
    exact if_pos rfl
  · unfold render_quirk_text
    rw [hs]
    exact if_neg hne
  · rcases h with h | h <;> unfold render_quirk_text <;> rw [h]
    exact if_pos rfl

/-- Witness for C8: a non-empty enhanced lore wins; an absent enhanced
quirk falls back to the synthesized sentence. -/
theorem render_text_precedence_witness :
    render_lore_text { sampleItem with enhanced_lore := some "An old blade." }
        = "An old blade." ∧
    render_quirk_text sampleItem = baseQuirk sampleItem :=
  ⟨(render_text_precedence { sampleItem with enhanced_lore := some "An old blade." }).1
      "An old blade." rfl (by decide),
   (render_text_precedence sampleItem).2.2.2 (Or.inl rfl)⟩

/-- C9: the image filename slug is a deterministic function of the item
name (`"item"` when absent or empty): character `i` of the slug is the
lower-cased character `i` of the name when alphanumeric and `_` otherwise,
the slug is capped at 40 characters, and the file goes to the fixed
`images` subdirectory with the fixed `.png` extension. -/
theorem save_image_slug_spec (s : String) (hs : s ≠ "") :
    (slug_of_name (some s)).length = min 40 s.length ∧
    (∀ i (hi : i < ((slug_of_name (some s)).data).length)
        (hi' : i < (s.data).length),
      ((slug_of_name (some s)).data).get ⟨i, hi⟩
        = (if (s.data.get ⟨i, hi'⟩).isAlphanum
            then (s.data.get ⟨i, hi'⟩).toLower else '_')) ∧
    slug_of_name none = "item" ∧
    slug_of_name (some "") = "item" ∧
    save_image_relpath (some s) = "images/" ++ slug_of_name (some s) ++ ".png" := by
  have hd : (slug_of_name (some s)).data
      = (s.data.map fun c => if c.isAlphanum then c.toLower else '_').take 40 := by
    simp only [slug_of_name]
    rw [if_neg hs]
  refine ⟨?_, ?_, rfl, rfl, rfl⟩
  · show ((slug_of_name (some s)).data).length = _
    rw [hd, List.length_take, List.length_map]
    rfl
  · intro i hi hi'
    simp only [List.get_eq_getElem, hd, List.getElem_take, List.getElem_map]

/-- Witness for C9 on the name `"My Axe!"`: slug `"my_axe_"`, whose third
character replaces the space of the name by `_`. -/
theorem save_image_slug_spec_witness :
    (slug_of_name (some "My Axe!")).length = min 40 ("My Axe!" : String).length ∧
    ((slug_of_name (some "My Axe!")).data).get ⟨2, by decide⟩
      = (if ((("My Axe!" : String).data).get ⟨2, by decide⟩).isAlphanum
          then ((("My Axe!" : String).data).get ⟨2, by decide⟩).toLower else '_') :=
  ⟨(save_image_slug_spec "My Axe!" (by decide)).1,
   (save_image_slug_spec "My Axe!" (by decide)).2.1 2 (by decide) (by decide)⟩

/-- C10: `framed_block` is defined exactly on non-empty line lists — on `[]`
its width maximum has no value and the call raises (`none`) — and the card
renderer always passes a body of at least seven lines, so rendering never
hits that branch. -/
theorem framed_block_needs_lines :
    (∀ lines bc, framed_block lines bc = none ↔ lines = []) ∧
    (∀ (item : Item) (wrap : String → List String),
      7 ≤ (render_card_body item wrap).length ∧
      (render_item_card item wrap).isSome = true) := by
  refine ⟨fun lines bc => ?_, fun item wrap => ⟨?_, ?_⟩⟩
  · constructor
    · intro h
      cases lines with
      | nil => rfl
      | cons a t => simp [framed_block] at h
    · rintro rfl
      rfl
  · simp only [render_card_body, List.length_append, List.length_cons]
    omega
  · rfl
